import Mathlib

/-!
Verification development for `sysstat4ha` (`src/sysstate4ha/tool.py`), a host
telemetry agent that samples CPU, disk and uptime metrics and publishes them
over MQTT for Home Assistant discovery.

The Python source is shallowly embedded below: the cached CPU sampler
(`CPUUsage`) becomes an explicit state machine over rational samples, entity
registry construction (`SysState4HA.__init__`) becomes a pure list builder,
the discovery-document serializer (`json.dumps` with `sort_keys=True,
indent=4`) becomes a string renderer with lexicographically sorted keys, and
fallible paths (Python exceptions) are returned as `Option`/`Except` values.
-/

namespace Tool

/-- Python `int()` applied to a rational number: truncation toward zero. -/
def pyint (x : ℚ) : ℤ := if 0 ≤ x then ⌊x⌋ else ⌈x⌉

/-- The argument `what` of `CPUUsage.get`: a zero-based core index, or the
sentinel string `"all"` selecting the cached average. -/
inductive CPUKey where
  | all : CPUKey
  | core (i : ℕ) : CPUKey
deriving DecidableEq, Repr

/-- The mutable attributes of a `CPUUsage` object: the served-key set
`self.fetched`, the cached per-core vector `self.cpu_usage`, and the cached
average `self.cpu_usage_avrg`. -/
structure CPUState where
  fetched : List CPUKey
  cpu_usage : List ℚ
  cpu_usage_avrg : ℚ
deriving DecidableEq, Repr

namespace CPUUsage

/-- `CPUUsage.update`: clears the served set, stores the fresh per-core
sample, and caches `int(10*sum(cpu_usage)/len(cpu_usage))/10`.  On an empty
sample the Python division raises `ZeroDivisionError`, modelled as `none`. -/
def update (sample : List ℚ) : Option CPUState :=
  if sample.isEmpty then none
  else some
    { fetched := []
      cpu_usage := sample
      cpu_usage_avrg := (pyint (10 * sample.sum / (sample.length : ℚ)) : ℚ) / 10 }

/-- The value `CPUUsage.get` reads from the current cache for a key:
`self.cpu_usage_avrg` for `"all"`, `self.cpu_usage[what]` otherwise
(`none` models an out-of-range `IndexError`). -/
def value (st : CPUState) : CPUKey → Option ℚ
  | CPUKey.all => some st.cpu_usage_avrg
  | CPUKey.core i => st.cpu_usage[i]?

/-- `CPUUsage.get(what)`: if `what` is already in `self.fetched`, run
`self.update()` first (with the fresh OS sample `fresh`); then add `what` to
`self.fetched` and return the cached value for `what`. -/
def get (st : CPUState) (fresh : List ℚ) (what : CPUKey) : Option (ℚ × CPUState) :=
  match (if what ∈ st.fetched then update fresh else some st) with
  | none => none
  | some st1 =>
    let st2 : CPUState := { st1 with fetched := what :: st1.fetched }
    match value st2 what with
    | none => none
    | some v => some (v, st2)

/-- Run a sequence of `get` requests.  `supply k` is the fresh per-core
sample the OS would deliver to the `k`-th call of `update`; the returned
counter records how many resamples (`update` calls) happened. -/
def run (supply : ℕ → List ℚ) : CPUState → ℕ → List CPUKey → Option (List ℚ × CPUState × ℕ)
  | st, k, [] => some ([], st, k)
  | st, k, w :: ws =>
    let k1 := if w ∈ st.fetched then k + 1 else k
    match get st (supply k) w with
    | none => none
    | some (v, st1) =>
      match run supply st1 k1 ws with
      | none => none
      | some (vs, st2, k2) => some (v :: vs, st2, k2)

/-- A key is readable from a given per-core sample (the index is in range). -/
def inRange (w : CPUKey) (sample : List ℚ) : Prop :=
  match w with
  | CPUKey.all => True
  | CPUKey.core i => i < sample.length

end CPUUsage

/-- One character of `name.replace(" ", "_").replace("/", "_").lower()`:
spaces and slashes become underscores, then the character is lower-cased
(`Char.toLower` covers the basic-latin fragment of Python `str.lower`). -/
def qualChar (c : Char) : Char :=
  Char.toLower (if c = ' ' then '_' else if c = '/' then '_' else c)

/-- `Entity.qual_name` derivation:
`self.name.replace(" ", "_").replace("/", "_").lower()`. -/
def qualName (s : String) : String := String.mk (s.data.map qualChar)

/-- The metric source an entity's zero-argument getter is closed over. -/
inductive Getter where
  | cpuAll : Getter
  | cpuCore (i : ℕ) : Getter
  | disk (mountpoint : String) : Getter
  | uptime : Getter
deriving DecidableEq, Repr

/-- The `Entity` abstraction layer: display name, machine id, optional unit,
getter, optional full name, card name, and the derived identifiers computed
in `Entity.__init__`. -/
structure Entity where
  name : String
  mid : String
  unit_of_measurement : Option String
  get : Getter
  full_name : Option String
  card_name : String
  qual_name : String
  state_topic : String
  unique_id : String
deriving DecidableEq, Repr

/-- `Entity.__init__`: stores the given attributes, defaults `card_name` to
`name`, and derives `qual_name`, `state_topic = f"{mid}/{qual_name}"` and
`unique_id = f"{mid}_{qual_name}"`. -/
def Entity.make (name : String) (mid : String) (uom : Option String) (g : Getter)
    (full_name : Option String) (card_name : Option String) : Entity :=
  { name := name
    mid := mid
    unit_of_measurement := uom
    get := g
    full_name := full_name
    card_name := card_name.getD name
    qual_name := qualName name
    state_topic := mid ++ "/" ++ qualName name
    unique_id := mid ++ "_" ++ qualName name }

/-- One element of `psutil.disk_partitions()`. -/
structure DiskPartition where
  device : String
  mountpoint : String
  fstype : String
deriving DecidableEq, Repr

/-- The entity registry built in `SysState4HA.__init__`: the aggregate CPU
entity, then `CPU 1 .. CPU N` (Python `range(1, cpu_count()+1)`, core index
`i-1`), then one entity per disk partition, then the uptime entity. -/
def buildEntities (mid : String) (ncpu : ℕ) (disk_parts : List DiskPartition) : List Entity :=
  [Entity.make "CPU all" mid (some "%") Getter.cpuAll none none]
  ++ (List.range ncpu).map (fun i =>
      Entity.make ("CPU " ++ toString (i + 1)) mid (some "%") (Getter.cpuCore i) none none)
  ++ disk_parts.map (fun dp =>
      Entity.make dp.device mid (some "%") (Getter.disk dp.mountpoint)
        (some (dp.device ++ ": " ++ dp.mountpoint ++ " (" ++ dp.fstype ++ ")"))
        (some dp.mountpoint))
  ++ [Entity.make "uptime" mid none Getter.uptime none none]

/-- The OS-provider values read once in `SysState4HA.__init__`:
`psutil.cpu_count()`, the first `psutil.cpu_percent(percpu=True)` sample, and
`psutil.disk_partitions()`. -/
structure Provider where
  cpu_count : ℕ
  cpu_percent : List ℚ
  disk_partitions : List DiskPartition
deriving Repr

/-- The constructed `SysState4HA` object (the fields the core claims use). -/
structure Agent where
  mid : String
  prod_name : String
  host_alias : String
  origin_name : String
  interval : ℚ
  cpu_state : CPUState
  entities : List Entity
deriving Repr

/-- `SysState4HA.__init__`: constructs `CPUUsage()` (whose `update` raises on
an empty per-core sample — then no entity list is ever built) and then builds
the entity registry. -/
def mkAgent (mid prod_name host_alias origin_name : String) (interval : ℚ)
    (p : Provider) : Option Agent :=
  (CPUUsage.update p.cpu_percent).map (fun st =>
    { mid := mid
      prod_name := prod_name
      host_alias := host_alias
      origin_name := origin_name
      interval := interval
      cpu_state := st
      entities := buildEntities mid p.cpu_count p.disk_partitions })

/-- The per-tick sleep in `SysState4HA.publish`:
`time.sleep(s if (s := self.interval - (t1 - t0)) > 0 else 0)`. -/
def computeSleep (interval elapsed : ℚ) : ℚ :=
  if interval - elapsed > 0 then interval - elapsed else 0

/-- The sleeps performed by successive iterations of the publish loop, one
per full entity sweep, given the measured sweep durations. -/
def publishTicks (interval : ℚ) (sweepDurations : List ℚ) : List ℚ :=
  sweepDurations.map (computeSleep interval)

/-- One value of the `components` map built in `_generate_discovery_JSON`. -/
structure Component where
  name : String
  platform : String
  state_topic : String
  unique_id : String
  unit_of_measurement : Option String
deriving DecidableEq, Repr

/-- The component dict entry `cmps[e.name] = {...}` for one entity. -/
def mkComponent (e : Entity) : Component :=
  { name := e.name
    platform := "sensor"
    state_topic := e.state_topic
    unique_id := e.unique_id
    unit_of_measurement := e.unit_of_measurement }

/-- Python dict assignment `m[k] = v`: replace the value in place if the key
exists, otherwise append the binding at the end (insertion order). -/
def dictInsert {α : Type} (m : List (String × α)) (k : String) (v : α) : List (String × α) :=
  if m.any (fun p => p.1 == k) then m.map (fun p => if p.1 == k then (k, v) else p)
  else m ++ [(k, v)]

/-- Python dict read `m[k]` (first, hence unique, binding of the key). -/
def dictLookup {α : Type} (m : List (String × α)) (k : String) : Option α :=
  (m.find? (fun p => p.1 == k)).map Prod.snd

/-- The `cmps` dict of `_generate_discovery_JSON`: keyed by the entity's
display `name` (not its `qual_name`), later entities overwriting earlier
ones with the same name. -/
def components (es : List Entity) : List (String × Component) :=
  es.foldl (fun m e => dictInsert m e.name (mkComponent e)) []

/-- JSON string escaping for one character, as in `json.dumps` (the
double-quote and backslash cases; control and non-ASCII characters do not
occur in the document). -/
def jesc (c : Char) : String :=
  if c = '"' then "\\\"" else if c = '\\' then "\\\\" else String.mk [c]

/-- A JSON string literal. -/
def jstr (s : String) : String := "\"" ++ String.join (s.data.map jesc) ++ "\""

/-- An optional-string JSON value: a string literal or `null` (for the
uptime entity's `unit_of_measurement = None`). -/
def jval : Option String → String
  | some s => jstr s
  | none => "null"

/-- The key order `json.dumps(..., sort_keys=True)` emits for an object:
the keys sorted lexicographically. -/
def objKeys {α : Type} (m : List (String × α)) : List String :=
  List.insertionSort (fun a b => a ≤ b) (m.map Prod.fst)

/-- Render a JSON object as `json.dumps(..., sort_keys=True, indent=4)`
does: keys sorted, each `"key": value` on its own line at indentation
`indF`, closing brace at indentation `indC`.  The value strings are
pre-rendered. -/
def jobjMap (indC indF : String) (m : List (String × String)) : String :=
  if m.isEmpty then "\x7b\x7d"
  else
    "\x7b\n"
    ++ String.intercalate ",\n"
        ((objKeys m).map (fun k => indF ++ jstr k ++ ": " ++ (dictLookup m k).getD "null"))
    ++ "\n" ++ indC ++ "\x7d"

/-- Four-space indentation unit of `json.dumps(..., indent=4)`. -/
def ind4 : String := "    "

def ind8 : String := ind4 ++ ind4

def ind12 : String := ind8 ++ ind4

/-- One entry of the `components` map as serialized JSON (depth 2; its
fields at depth 3). -/
def renderComponentObj (c : Component) : String :=
  jobjMap ind8 ind12
    [("name", jstr c.name), ("platform", jstr c.platform),
     ("state_topic", jstr c.state_topic), ("unique_id", jstr c.unique_id),
     ("unit_of_measurement", jval c.unit_of_measurement)]

/-- The serialized `components` object (depth 1; entries at depth 2). -/
def renderComponents (m : List (String × Component)) : String :=
  jobjMap ind4 ind8 (m.map (fun kv => (kv.1, renderComponentObj kv.2)))

/-- The serialized `device` object: `identifiers` (a one-element array),
`model`, `name` — already in sorted key order. -/
def renderDevice (host_alias mid prod_name : String) : String :=
  jobjMap ind4 ind8
    [("identifiers", "[\n" ++ ind12 ++ jstr mid ++ "\n" ++ ind8 ++ "]"),
     ("model", jstr prod_name), ("name", jstr host_alias)]

/-- The serialized `origin` object. -/
def renderOrigin (origin_name : String) : String :=
  jobjMap ind4 ind8 [("name", jstr origin_name)]

/-- `SysState4HA._generate_discovery_JSON`: builds the `cmps` dict keyed by
display name and serializes `{origin, components, device}` with
`json.dumps(data, sort_keys=True, indent=4)`. -/
def generateDiscoveryJSON (a : Agent) : String :=
  jobjMap "" ind4
    [("components", renderComponents (components a.entities)),
     ("device", renderDevice a.host_alias a.mid a.prod_name),
     ("origin", renderOrigin a.origin_name)]

/-- The observable outcome of one of the one-shot commands: how many
`mosquitto_pub` invocations it issued, and either the logged success message
or the raised error. -/
structure OneShotResult where
  publish_count : ℕ
  outcome : Except String String
deriving Repr

/-- `SysState4HA.expose`: one `subprocess.run(cmd, shell=True, check=True)`
publishing the discovery JSON to the device config topic.  With `check=True`
a non-zero returncode raises `CalledProcessError` (the failure is not logged
and not retried); on success `log.info("expose ... successful")` runs. -/
def expose (a : Agent) (returncode : ℕ) : OneShotResult :=
  { publish_count := 1
    outcome :=
      if returncode = 0 then Except.ok ("expose device/" ++ a.mid ++ " successful")
      else Except.error "CalledProcessError" }

/-- `SysState4HA.remove`: one `subprocess.run(cmd, shell=True, check=True)`
publishing an empty retained payload to the device config topic; same
outcome handling as `expose`. -/
def remove (a : Agent) (returncode : ℕ) : OneShotResult :=
  { publish_count := 1
    outcome :=
      if returncode = 0 then Except.ok ("remove device/" ++ a.mid ++ " successful")
      else Except.error "CalledProcessError" }

/-- Two-digit zero padding for minutes and seconds. -/
def pad2 (k : ℕ) : String := if k < 10 then "0" ++ toString k else toString k

/-- `str(datetime.timedelta(seconds=n))` for a whole number of seconds. -/
def timedeltaStr (n : ℕ) : String :=
  let days := n / 86400
  let rest := n % 86400
  let hms := toString (rest / 3600) ++ ":" ++ pad2 (rest % 3600 / 60) ++ ":" ++ pad2 (rest % 60)
  if days = 0 then hms
  else if days = 1 then "1 day, " ++ hms
  else toString days ++ " days, " ++ hms

/-- `get_uptime`: if `/proc/uptime` exists (modelled as `some n`, the parsed
whole seconds), return the formatted timedelta string.  Otherwise the source
evaluates the bare expression `RuntimeError("Failed to get uptime")` without
`raise`: the exception object is constructed and discarded, the function
falls through, and Python returns `None` — so the result is `ok none`, never
an `error`. -/
def get_uptime (proc_uptime : Option ℕ) : Except String (Option String) :=
  match proc_uptime with
  | some n => Except.ok (some (timedeltaStr n))
  | none =>
    let _discarded := "Failed to get uptime"
    Except.ok none

/-- A concrete constructed agent (machine id `abc123`, two cores, one disk
partition) used to exercise the one-shot commands on explicit inputs. -/
def fixtureAgent : Agent :=
  { mid := "abc123"
    prod_name := "prod"
    host_alias := "host"
    origin_name := "linux mosquitto"
    interval := 2
    cpu_state := { fetched := [], cpu_usage := [10, 20], cpu_usage_avrg := 15 }
    entities := buildEntities "abc123" 2 [⟨"/dev/sda1", "/", "ext4"⟩] }

/-- Claim C3: the per-tick sleep equals `max 0 (interval - elapsed)`: it is
`1.7` for elapsed `0.3` and interval `2`, it is exactly `0` (never negative)
whenever the sweep took at least the interval, and the loop performs exactly
one sleep per sweep (no skipped or doubled ticks). -/
theorem claim_C3 :
    (∀ interval elapsed : ℚ, computeSleep interval elapsed = max 0 (interval - elapsed))
    ∧ computeSleep 2 (3/10) = 17/10
    ∧ (∀ interval elapsed : ℚ, interval ≤ elapsed → computeSleep interval elapsed = 0)
    ∧ (∀ (interval : ℚ) (ds : List ℚ), (publishTicks interval ds).length = ds.length) := by
  refine ⟨?_, ?_, ?_, ?_⟩
  · intro i e
    unfold computeSleep
    rcases le_or_lt (i - e) 0 with h | h
    · rw [if_neg (not_lt.mpr h), max_eq_left h]
    · rw [if_pos h, max_eq_right h.le]
  · norm_num [computeSleep]
  · intro i e h
    unfold computeSleep
    rw [if_neg]
    simpa using h
  · intro i ds
    simp [publishTicks]

theorem claim_C3_witness : computeSleep 2 (5/2) = 0 :=
  claim_C3.2.2.1 2 (5/2) (by norm_num)

/-- Claim C4: a zero-core provider report (empty per-core vector) makes
agent construction fail (`CPUUsage.update` divides by the core count), so no
entity registry is built. -/
theorem claim_C4 : ∀ (mid prod host orig : String) (interval : ℚ) (p : Provider),
    p.cpu_count = 0 → p.cpu_percent.length = p.cpu_count →
    mkAgent mid prod host orig interval p = none := by
  intro mid prod host orig interval p h0 hlen
  have hnil : p.cpu_percent = [] := List.length_eq_zero.mp (by rw [hlen, h0])
  simp [mkAgent, CPUUsage.update, hnil]

theorem claim_C4_witness :
    mkAgent "abc123" "prod" "host" "origin" 2 ⟨0, [], []⟩ = none :=
  claim_C4 "abc123" "prod" "host" "origin" 2 ⟨0, [], []⟩ rfl rfl

/-- Claim C5 counterexample: on a non-zero returncode, `expose` does not
merely log the failure — `subprocess.run(..., check=True)` raises
`CalledProcessError`, so the outcome is an uncaught error, not a log. -/
theorem claim_C5_counterexample :
    (expose fixtureAgent 1).outcome = Except.error "CalledProcessError"
    ∧ ((expose fixtureAgent 1).outcome.isOk = false
        ∧ (remove fixtureAgent 1).outcome.isOk = false) :=
  ⟨rfl, rfl, rfl⟩

/-- Claim C5 (amended): `expose` and `remove` each issue exactly one
Transport Sink publish and never retry; on returncode 0 the outcome is a
logged success, but on a non-zero returncode a `CalledProcessError` is
raised (`check=True`) and propagates — the failure is not handled by
logging. -/
theorem claim_C5_amended_thm : ∀ (a : Agent) (rc : ℕ),
    (expose a rc).publish_count = 1 ∧ (remove a rc).publish_count = 1
    ∧ (expose a rc).outcome =
        (if rc = 0 then Except.ok ("expose device/" ++ a.mid ++ " successful")
         else Except.error "CalledProcessError")
    ∧ (remove a rc).outcome =
        (if rc = 0 then Except.ok ("remove device/" ++ a.mid ++ " successful")
         else Except.error "CalledProcessError") := by
  intro a rc
  exact ⟨rfl, rfl, rfl, rfl⟩

/-- Claim C7: for every non-empty per-core sample, the cached aggregate CPU
value is the sum of the per-core percentages divided by the core count,
truncated to one decimal digit (multiply by 10, integer-truncate, divide by
10). -/
theorem claim_C7 : ∀ (s : List ℚ) (st : CPUState), CPUUsage.update s = some st →
    st.cpu_usage_avrg = (pyint ((s.sum / (s.length : ℚ)) * 10) : ℚ) / 10 := by
  intro s st h
  rw [CPUUsage.update] at h
  split at h
  · exact absurd h (by simp)
  · have harg : 10 * s.sum / (s.length : ℚ) = s.sum / (s.length : ℚ) * 10 := by ring
    cases h
    simp only [harg]

theorem claim_C7_witness :
    CPUUsage.update [(30:ℚ), 50] = some ⟨[], [(30:ℚ), 50], 40⟩
    ∧ (⟨[], [(30:ℚ), 50], 40⟩ : CPUState).cpu_usage_avrg
        = (pyint (([(30:ℚ), 50].sum / ([(30:ℚ), 50].length : ℚ)) * 10) : ℚ) / 10 :=
  ⟨by norm_num [CPUUsage.update, pyint],
   claim_C7 [(30:ℚ), 50] ⟨[], [(30:ℚ), 50], 40⟩ (by norm_num [CPUUsage.update, pyint])⟩

/-- Claim C2: for every core count `N ≥ 1` and partition list, the registry
built at construction has exactly `1 + N + |partitions| + 1` entities, in
insertion order: the aggregate CPU entity, the `N` per-core entities in index
order, one entity per partition in provider order, then the uptime entity. -/
theorem claim_C2 : ∀ (mid prod host orig : String) (interval : ℚ) (p : Provider) (a : Agent),
    1 ≤ p.cpu_count → mkAgent mid prod host orig interval p = some a →
    a.entities.length = 1 + p.cpu_count + p.disk_partitions.length + 1
    ∧ a.entities.map (fun e => e.name) =
        ["CPU all"] ++ (List.range p.cpu_count).map (fun i => "CPU " ++ toString (i + 1))
          ++ p.disk_partitions.map (fun dp => dp.device) ++ ["uptime"]
    ∧ a.entities.map (fun e => e.get) =
        [Getter.cpuAll] ++ (List.range p.cpu_count).map (fun i => Getter.cpuCore i)
          ++ p.disk_partitions.map (fun dp => Getter.disk dp.mountpoint) ++ [Getter.uptime] := by
  intro mid prod host orig interval p a hn hmk
  have hent : a.entities = buildEntities mid p.cpu_count p.disk_partitions := by
    rw [mkAgent] at hmk
    cases hupd : CPUUsage.update p.cpu_percent with
    | none => rw [hupd] at hmk; simp at hmk
    | some st =>
      rw [hupd] at hmk
      simp only [Option.map_some'] at hmk
      cases hmk
      rfl
  refine ⟨?_, ?_, ?_⟩
  · rw [hent]
    simp [buildEntities]
    omega
  · rw [hent]
    simp [buildEntities, Entity.make, List.map_map, Function.comp_def]
  · rw [hent]
    simp [buildEntities, Entity.make, List.map_map, Function.comp_def]

theorem claim_C2_witness : fixtureAgent.entities.length = 1 + 2 + 1 + 1 :=
  (claim_C2 "abc123" "prod" "host" "linux mosquitto" 2
    ⟨2, [10, 20], [⟨"/dev/sda1", "/", "ext4"⟩]⟩ fixtureAgent
    (by norm_num)
    (by norm_num [mkAgent, CPUUsage.update, pyint, fixtureAgent])).1

lemma char_toNat_ofNat (n : ℕ) (h : n < 55296) : (Char.ofNat n).toNat = n := by
  have hv : n.isValidChar := Or.inl h
  rw [Char.ofNat, dif_pos hv]
  rfl

lemma toLower_of_upper (c : Char) (h : 65 ≤ c.toNat ∧ c.toNat ≤ 90) :
    Char.toLower c = Char.ofNat (c.toNat + 32) := by
  rw [Char.toLower, if_pos h]

lemma toLower_of_not_upper (c : Char) (h : ¬ (65 ≤ c.toNat ∧ c.toNat ≤ 90)) :
    Char.toLower c = c := by
  rw [Char.toLower, if_neg h]

/-- `qualChar` is idempotent: its output (an underscore, a basic-latin
lower-case letter, or an unaffected character) is a fixed point. -/
lemma qualChar_idem (c : Char) : qualChar (qualChar c) = qualChar c := by
  by_cases hsp : c = ' '
  · subst hsp; decide
  by_cases hsl : c = '/'
  · subst hsl; decide
  have hq : qualChar c = Char.toLower c := by simp [qualChar, hsp, hsl]
  rw [hq]
  by_cases hup : 65 ≤ c.toNat ∧ c.toNat ≤ 90
  · rw [toLower_of_upper c hup]
    have hd : (Char.ofNat (c.toNat + 32)).toNat = c.toNat + 32 :=
      char_toNat_ofNat _ (by omega)
    have hd1 : Char.ofNat (c.toNat + 32) ≠ ' ' := by
      intro h
      rw [h] at hd
      have h32 : (' ').toNat = 32 := rfl
      omega
    have hd2 : Char.ofNat (c.toNat + 32) ≠ '/' := by
      intro h
      rw [h] at hd
      have h47 : ('/').toNat = 47 := rfl
      omega
    have hd3 : Char.toLower (Char.ofNat (c.toNat + 32)) = Char.ofNat (c.toNat + 32) := by
      apply toLower_of_not_upper
      omega
    simp [qualChar, hd1, hd2, hd3]
  · rw [toLower_of_not_upper c hup, hq, toLower_of_not_upper c hup]

/-- Claim C8: the `qual_name` derivation (spaces and slashes replaced by
underscores, then lower-cased) is idempotent, and maps the fixture names
`"CPU 1"` to `"cpu_1"` and `"/dev/sda1"` to `"_dev_sda1"`. -/
theorem claim_C8 :
    (∀ s : String, qualName (qualName s) = qualName s)
    ∧ qualName "CPU 1" = "cpu_1" ∧ qualName "/dev/sda1" = "_dev_sda1" := by
  refine ⟨?_, by decide, by decide⟩
  intro s
  have hdata : (String.mk (s.data.map qualChar)).data = s.data.map qualChar := rfl
  rw [qualName, qualName, hdata, List.map_map]
  exact congrArg String.mk (List.map_congr_left (fun a _ => qualChar_idem a))

lemma dictLookup_cons_pos {α : Type} (p : String × α) (m : List (String × α)) (k : String)
    (h : p.1 = k) : dictLookup (p :: m) k = some p.2 := by
  simp [dictLookup, List.find?_cons_of_pos, h]

lemma dictLookup_cons_neg {α : Type} (p : String × α) (m : List (String × α)) (k : String)
    (h : p.1 ≠ k) : dictLookup (p :: m) k = dictLookup m k := by
  rw [dictLookup, List.find?_cons_of_neg _ (by simpa using h), dictLookup]

lemma lookup_map_repl {α : Type} (k k' : String) (v : α) (m : List (String × α)) :
    dictLookup (m.map (fun p => if p.1 == k then (k, v) else p)) k'
    = if k' = k then (if m.any (fun p => p.1 == k) then some v else none)
      else dictLookup m k' := by
  induction m with
  | nil => simp [dictLookup]
  | cons p m ih =>
    rw [List.map_cons]
    by_cases hp : p.1 = k
    · have hhead : (if p.1 == k then (k, v) else p) = (k, v) := by simp [hp]
      rw [hhead]
      by_cases hk : k' = k
      · subst hk
        rw [dictLookup_cons_pos _ _ _ rfl]
        have hany : (p :: m).any (fun q => q.1 == k') = true := by simp [hp]
        simp [hany]
      · rw [dictLookup_cons_neg _ _ _ (fun hh => hk hh.symm), ih,
          if_neg hk, if_neg hk, dictLookup_cons_neg _ _ _ (fun hh => hk ((hp ▸ hh).symm))]
    · have hhead : (if p.1 == k then (k, v) else p) = p := by simp [hp]
      rw [hhead]
      by_cases hpk : p.1 = k'
      · have hk : ¬ k' = k := fun h => hp (h ▸ hpk)
        rw [dictLookup_cons_pos _ _ _ hpk, if_neg hk, dictLookup_cons_pos _ _ _ hpk]
      · rw [dictLookup_cons_neg _ _ _ hpk, ih, dictLookup_cons_neg _ _ _ hpk]
        by_cases hk : k' = k
        · rw [if_pos hk, if_pos hk]
          have : (p :: m).any (fun q => q.1 == k) = m.any (fun q => q.1 == k) := by
            simp [hp]
          rw [this]
        · rw [if_neg hk, if_neg hk]

lemma lookup_append_single_neg {α : Type} (k k' : String) (v : α) (hk : k' ≠ k)
    (m : List (String × α)) : dictLookup (m ++ [(k, v)]) k' = dictLookup m k' := by
  induction m with
  | nil =>
    rw [List.nil_append, dictLookup_cons_neg _ _ _ (fun hh => hk hh.symm)]
  | cons p m ih =>
    by_cases hpk : p.1 = k'
    · rw [List.cons_append, dictLookup_cons_pos _ _ _ hpk, dictLookup_cons_pos _ _ _ hpk]
    · rw [List.cons_append, dictLookup_cons_neg _ _ _ hpk, ih, dictLookup_cons_neg _ _ _ hpk]

lemma lookup_append_single_pos {α : Type} (k : String) (v : α) :
    ∀ m : List (String × α), (∀ p ∈ m, p.1 ≠ k) → dictLookup (m ++ [(k, v)]) k = some v := by
  intro m
  induction m with
  | nil =>
    intro _
    rw [List.nil_append]
    exact dictLookup_cons_pos _ _ _ rfl
  | cons p m ih =>
    intro hm
    rw [List.cons_append, dictLookup_cons_neg _ _ _ (hm p (List.mem_cons_self p m))]
    exact ih (fun q hq => hm q (List.mem_cons_of_mem p hq))

lemma dictLookup_dictInsert {α : Type} (m : List (String × α)) (k k' : String) (v : α) :
    dictLookup (dictInsert m k v) k' = if k' = k then some v else dictLookup m k' := by
  rw [dictInsert]
  by_cases hany : m.any (fun p => p.1 == k)
  · rw [if_pos hany, lookup_map_repl]
    by_cases hk : k' = k
    · simp [hk, hany]
    · simp [hk]
  · rw [if_neg hany]
    have hnk : ∀ p ∈ m, p.1 ≠ k := by
      simp only [List.any_eq_true, not_exists, not_and] at hany
      intro p hp hpk
      exact absurd (by simpa using hpk) (by simpa using hany p hp)
    by_cases hk : k' = k
    · subst hk
      rw [if_pos rfl]
      exact lookup_append_single_pos k' v m hnk
    · rw [if_neg hk, lookup_append_single_neg k k' v hk m]

lemma keys_dictInsert {α : Type} (m : List (String × α)) (k : String) (v : α) :
    (dictInsert m k v).map Prod.fst
    = if m.any (fun p => p.1 == k) then m.map Prod.fst else m.map Prod.fst ++ [k] := by
  rw [dictInsert]
  by_cases hany : m.any (fun p => p.1 == k)
  · rw [if_pos hany, if_pos hany, List.map_map]
    apply List.map_congr_left
    intro p _
    by_cases hpk : p.1 = k <;> simp [hpk]
  · rw [if_neg hany, if_neg hany]
    simp

lemma nodup_keys_dictInsert {α : Type} (m : List (String × α)) (k : String) (v : α)
    (h : (m.map Prod.fst).Nodup) : ((dictInsert m k v).map Prod.fst).Nodup := by
  rw [keys_dictInsert]
  by_cases hany : m.any (fun p => p.1 == k)
  · rw [if_pos hany]; exact h
  · rw [if_neg hany]
    have hk : k ∉ m.map Prod.fst := by
      simp only [List.any_eq_true, not_exists, not_and] at hany
      simp only [List.mem_map, not_exists, not_and]
      intro p hp hpk
      exact absurd (by simpa using hpk) (by simpa using hany p hp)
    simp [List.nodup_append, h, hk]

lemma components_lookup_aux (es : List Entity) :
    ∀ (acc : List (String × Component)) (name : String),
    dictLookup (es.foldl (fun m e => dictInsert m e.name (mkComponent e)) acc) name
    = ((es.reverse.find? (fun e => e.name == name)).map mkComponent).or (dictLookup acc name) := by
  induction es with
  | nil =>
    intro acc name
    simp
  | cons e es ih =>
    intro acc name
    rw [List.foldl_cons, ih, List.reverse_cons, List.find?_append]
    cases hfind : es.reverse.find? (fun e2 => e2.name == name) with
    | some x => simp
    | none =>
      rw [dictLookup_dictInsert]
      by_cases hn : name = e.name
      · simp [hn]
      · have hsing : List.find? (fun e2 => e2.name == name) [e] = none :=
          List.find?_eq_none.mpr (by
            intro x hx
            rw [List.mem_singleton] at hx
            subst hx
            simpa using fun hh => hn hh.symm)
        simp [hsing, hn]

lemma components_nodup_aux (es : List Entity) :
    ∀ acc : List (String × Component), (acc.map Prod.fst).Nodup →
    (((es.foldl (fun m e => dictInsert m e.name (mkComponent e)) acc).map Prod.fst).Nodup) := by
  induction es with
  | nil =>
    intro acc h
    simpa using h
  | cons e es ih =>
    intro acc h
    rw [List.foldl_cons]
    exact ih _ (nodup_keys_dictInsert _ _ _ h)

/-- Claim C6: the discovery document's components map is keyed by each
entity's display name; looking a name up yields the component of the LAST
entity with that display name (silent last-wins overwrite, no error), and
the map never holds two bindings for one name. -/
theorem claim_C6 :
    (∀ (es : List Entity) (name : String),
        dictLookup (components es) name
        = (es.reverse.find? (fun e => e.name == name)).map mkComponent)
    ∧ (∀ es : List Entity, ((components es).map Prod.fst).Nodup) := by
  constructor
  · intro es name
    rw [components, components_lookup_aux]
    have hnil : dictLookup ([] : List (String × Component)) name = none := rfl
    rw [hnil, Option.or_none]
  · intro es
    rw [components]
    exact components_nodup_aux es [] (by simp)

lemma mem_of_dictLookup_eq_some {α : Type} (m : List (String × α)) (k : String) (v : α)
    (h : dictLookup m k = some v) : (k, v) ∈ m := by
  rw [dictLookup] at h
  cases hf : m.find? (fun p => p.1 == k) with
  | none => rw [hf] at h; cases h
  | some p =>
    rw [hf] at h
    have hp : p ∈ m := List.mem_of_find?_eq_some hf
    have hpk : p.1 = k := by simpa using List.find?_some hf
    have hv : p.2 = v := by simpa using h
    have : p = (k, v) := by rw [← hpk, ← hv]
    exact this ▸ hp

lemma dictLookup_eq_some_of_mem {α : Type} :
    ∀ (m : List (String × α)), ((m.map Prod.fst).Nodup) →
    ∀ (k : String) (v : α), (k, v) ∈ m → dictLookup m k = some v := by
  intro m
  induction m with
  | nil => intro _ k v hm; cases hm
  | cons p m ih =>
    intro hnd k v hm
    rcases List.mem_cons.mp hm with hh | ht
    · rw [← hh]
      exact dictLookup_cons_pos _ _ _ rfl
    · have hk : k ∈ m.map Prod.fst := List.mem_map.mpr ⟨(k, v), ht, rfl⟩
      rw [List.map_cons] at hnd
      have hp : p.1 ≠ k := by
        intro he
        exact (List.nodup_cons.mp hnd).1 (he ▸ hk)
      rw [dictLookup_cons_neg _ _ _ hp]
      exact ih (List.nodup_cons.mp hnd).2 k v ht

lemma dictLookup_eq_none_iff {α : Type} (m : List (String × α)) (k : String) :
    dictLookup m k = none ↔ k ∉ m.map Prod.fst := by
  rw [dictLookup, Option.map_eq_none', List.find?_eq_none]
  constructor
  · intro h hk
    rcases List.mem_map.mp hk with ⟨p, hp, hpk⟩
    exact absurd (by simpa using hpk) (by simpa using h p hp)
  · intro h p hp hpk
    exact h (List.mem_map.mpr ⟨p, hp, by simpa using hpk⟩)

/-- With duplicate-free keys, lookups are invariant under permutation of the
association list. -/
lemma dictLookup_perm {α : Type} (m1 m2 : List (String × α)) (h : m1.Perm m2)
    (hnd : (m1.map Prod.fst).Nodup) (k : String) : dictLookup m1 k = dictLookup m2 k := by
  have hnd2 : (m2.map Prod.fst).Nodup := ((h.map Prod.fst).nodup_iff).mp hnd
  cases hl : dictLookup m1 k with
  | some v =>
    have hm : (k, v) ∈ m2 := h.mem_iff.mp (mem_of_dictLookup_eq_some m1 k v hl)
    exact (dictLookup_eq_some_of_mem m2 hnd2 k v hm).symm
  | none =>
    rw [dictLookup_eq_none_iff] at hl
    rw [eq_comm, dictLookup_eq_none_iff]
    intro hk
    exact hl (((h.map Prod.fst).mem_iff).mpr hk)

lemma objKeys_perm {α : Type} (m1 m2 : List (String × α)) (h : m1.Perm m2) :
    objKeys m1 = objKeys m2 :=
  List.eq_of_perm_of_sorted
    (((List.perm_insertionSort _ (m1.map Prod.fst)).trans (h.map Prod.fst)).trans
      (List.perm_insertionSort _ (m2.map Prod.fst)).symm)
    (List.sorted_insertionSort _ (m1.map Prod.fst))
    (List.sorted_insertionSort _ (m2.map Prod.fst))

/-- `json.dumps(..., sort_keys=True)` canonicalizes an object: two insertion
orders of the same bindings (duplicate-free keys) serialize identically. -/
lemma jobjMap_perm (indC indF : String) (m1 m2 : List (String × String))
    (h : m1.Perm m2) (hnd : (m1.map Prod.fst).Nodup) :
    jobjMap indC indF m1 = jobjMap indC indF m2 := by
  have hlen := h.length_eq
  have hemp : m1.isEmpty = m2.isEmpty := by
    cases m1 <;> cases m2 <;> simp_all
  rw [jobjMap, jobjMap, hemp]
  by_cases hE : m2.isEmpty
  · rw [if_pos hE, if_pos hE]
  · rw [if_neg hE, if_neg hE, objKeys_perm m1 m2 h]
    have hmap : (objKeys m2).map
          (fun k => indF ++ jstr k ++ ": " ++ (dictLookup m1 k).getD "null")
        = (objKeys m2).map
          (fun k => indF ++ jstr k ++ ": " ++ (dictLookup m2 k).getD "null") := by
      apply List.map_congr_left
      intro k _
      rw [dictLookup_perm m1 m2 h hnd k]
    rw [hmap]

lemma keys_map_render (m : List (String × Component)) :
    ((m.map (fun kv => (kv.1, renderComponentObj kv.2))).map Prod.fst) = m.map Prod.fst := by
  rw [List.map_map]
  rfl

/-- Claim C9: discovery-document serialization is deterministic — the
builder is a pure function of the registry and device identity, the rendered
`components` object does not depend on the dict's insertion order (because
`sort_keys=True` orders keys lexicographically), and the emitted key
sequence of every object is sorted. -/
theorem claim_C9 :
    (∀ a : Agent, generateDiscoveryJSON a = generateDiscoveryJSON a)
    ∧ (∀ m1 m2 : List (String × Component), m1.Perm m2 → (m1.map Prod.fst).Nodup →
        renderComponents m1 = renderComponents m2)
    ∧ (∀ m : List (String × Component), (objKeys m).Sorted (fun a b => a ≤ b)) := by
  refine ⟨fun a => rfl, ?_, fun m => List.sorted_insertionSort _ (m.map Prod.fst)⟩
  intro m1 m2 h hnd
  rw [renderComponents, renderComponents]
  apply jobjMap_perm
  · exact h.map (fun kv => (kv.1, renderComponentObj kv.2))
  · rw [keys_map_render]
    exact hnd

theorem claim_C9_witness :
    renderComponents
        [("b", (⟨"b", "sensor", "m/b", "m_b", none⟩ : Component)),
         ("a", (⟨"a", "sensor", "m/a", "m_a", none⟩ : Component))]
      = renderComponents
        [("a", (⟨"a", "sensor", "m/a", "m_a", none⟩ : Component)),
         ("b", (⟨"b", "sensor", "m/b", "m_b", none⟩ : Component))] :=
  claim_C9.2.1 _ _
    (List.Perm.swap ("a", (⟨"a", "sensor", "m/a", "m_a", none⟩ : Component))
      ("b", (⟨"b", "sensor", "m/b", "m_b", none⟩ : Component)) [])
    (by decide)

lemma value_fetched_irrel (st : CPUState) (f : List CPUKey) (w : CPUKey) :
    CPUUsage.value { st with fetched := f } w = CPUUsage.value st w := by
  cases w <;> rfl

lemma value_exists_of_inRange (st : CPUState) (w : CPUKey)
    (h : CPUUsage.inRange w st.cpu_usage) : ∃ v, CPUUsage.value st w = some v := by
  cases w with
  | all => exact ⟨st.cpu_usage_avrg, rfl⟩
  | core i =>
    have hi : i < st.cpu_usage.length := h
    exact ⟨st.cpu_usage[i], by rw [CPUUsage.value]; exact List.getElem?_eq_getElem hi⟩

/-- A `get` on a not-yet-served key reads the current cache and only records
the key. -/
lemma get_not_fetched (st : CPUState) (fresh : List ℚ) (w : CPUKey)
    (hw : w ∉ st.fetched) (v : ℚ) (hv : CPUUsage.value st w = some v) :
    CPUUsage.get st fresh w = some (v, { st with fetched := w :: st.fetched }) := by
  rw [CPUUsage.get, if_neg hw]
  simp [value_fetched_irrel, hv]

/-- Distinct keys, none served yet: the whole run is answered from the
current cache, with no resample. -/
lemma run_nodup (supply : ℕ → List ℚ) :
    ∀ (ks : List CPUKey) (st : CPUState) (k : ℕ),
    ks.Nodup → (∀ w ∈ ks, w ∉ st.fetched) → (∀ w ∈ ks, CPUUsage.inRange w st.cpu_usage) →
    ∃ f1, CPUUsage.run supply st k ks
      = some (ks.map (fun w => (CPUUsage.value st w).getD 0), { st with fetched := f1 }, k) := by
  intro ks
  induction ks with
  | nil =>
    intro st k _ _ _
    exact ⟨st.fetched, rfl⟩
  | cons w ws ih =>
    intro st k hnd hmem hrng
    have hw : w ∉ st.fetched := hmem w (List.mem_cons_self w ws)
    obtain ⟨v, hv⟩ := value_exists_of_inRange st w (hrng w (List.mem_cons_self w ws))
    have hget := get_not_fetched st (supply k) w hw v hv
    have hmem2 : ∀ x ∈ ws, x ∉ ({ st with fetched := w :: st.fetched } : CPUState).fetched := by
      intro x hx hc
      rcases List.mem_cons.mp hc with hxw | hxf
      · exact (List.nodup_cons.mp hnd).1 (hxw ▸ hx)
      · exact hmem x (List.mem_cons_of_mem w hx) hxf
    have hrng2 : ∀ x ∈ ws,
        CPUUsage.inRange x ({ st with fetched := w :: st.fetched } : CPUState).cpu_usage :=
      fun x hx => hrng x (List.mem_cons_of_mem w hx)
    obtain ⟨f1, hrun⟩ :=
      ih { st with fetched := w :: st.fetched } k (List.nodup_cons.mp hnd).2 hmem2 hrng2
    refine ⟨f1, ?_⟩
    rw [CPUUsage.run]
    have hmap : ws.map
          (fun x => (CPUUsage.value { st with fetched := w :: st.fetched } x).getD 0)
        = ws.map (fun x => (CPUUsage.value st x).getD 0) :=
      List.map_congr_left (fun x _ => by rw [value_fetched_irrel])
    rw [hmap] at hrun
    simp only [if_neg hw, hget, hrun, List.map_cons, hv, Option.getD_some]

/-- Claim C1: `get` resamples exactly when a key repeats within a pass.
First conjunct: after construction or an `update`, any duplicate-free
request sequence is served entirely from the single in-memory sample with
zero resamples.  Second conjunct: a `get` whose key is already served first
refreshes the whole sample (empty served set, fresh per-core values,
recomputed average) and returns the fresh value for that key. -/
theorem claim_C1 :
    (∀ (s0 : List ℚ) (st0 : CPUState) (supply : ℕ → List ℚ) (ks : List CPUKey),
      CPUUsage.update s0 = some st0 → ks.Nodup → (∀ w ∈ ks, CPUUsage.inRange w s0) →
      ∃ f1, CPUUsage.run supply st0 0 ks
        = some (ks.map (fun w => (CPUUsage.value st0 w).getD 0), { st0 with fetched := f1 }, 0))
    ∧ (∀ (st : CPUState) (fresh : List ℚ) (stf : CPUState) (w : CPUKey),
      w ∈ st.fetched → CPUUsage.update fresh = some stf → CPUUsage.inRange w fresh →
      CPUUsage.get st fresh w
        = some ((CPUUsage.value stf w).getD 0, { stf with fetched := [w] })) := by
  constructor
  · intro s0 st0 supply ks hupd hnd hrng
    have hst0 : st0.fetched = [] ∧ st0.cpu_usage = s0 := by
      rw [CPUUsage.update] at hupd
      split at hupd
      · cases hupd
      · cases hupd
        exact ⟨rfl, rfl⟩
    apply run_nodup supply ks st0 0 hnd
    · intro w _
      rw [hst0.1]
      exact List.not_mem_nil w
    · intro w hw
      rw [hst0.2]
      exact hrng w hw
  · intro st fresh stf w hw hupd hrng
    have hstf : stf.fetched = [] ∧ stf.cpu_usage = fresh := by
      rw [CPUUsage.update] at hupd
      split at hupd
      · cases hupd
      · cases hupd
        exact ⟨rfl, rfl⟩
    obtain ⟨v, hv⟩ := value_exists_of_inRange stf w (by rw [hstf.2]; exact hrng)
    rw [CPUUsage.get, if_pos hw, hupd]
    simp only [value_fetched_irrel, hv, hstf.1, Option.getD_some]

theorem claim_C1_witness :
    ∃ f1, CPUUsage.run (fun _ => [(10:ℚ), 20]) ⟨[], [(10:ℚ), 20], 15⟩ 0
        [CPUKey.all, CPUKey.core 0, CPUKey.core 1]
      = some ([CPUKey.all, CPUKey.core 0, CPUKey.core 1].map
          (fun w => (CPUUsage.value ⟨[], [(10:ℚ), 20], 15⟩ w).getD 0),
        { (⟨[], [(10:ℚ), 20], 15⟩ : CPUState) with fetched := f1 }, 0) :=
  claim_C1.1 [(10:ℚ), 20] ⟨[], [(10:ℚ), 20], 15⟩ (fun _ => [(10:ℚ), 20])
    [CPUKey.all, CPUKey.core 0, CPUKey.core 1]
    (by norm_num [CPUUsage.update, pyint])
    (by decide)
    (by
      intro w hw
      rcases List.mem_cons.mp hw with rfl | hw2
      · exact trivial
      rcases List.mem_cons.mp hw2 with rfl | hw3
      · norm_num [CPUUsage.inRange]
      rcases List.mem_cons.mp hw3 with rfl | hw4
      · norm_num [CPUUsage.inRange]
      · cases hw4)

/-- Claim C10: when `/proc/uptime` is missing, `get_uptime` returns `None`
and raises nothing: the `RuntimeError` on its failure path is constructed
but never raised (no `raise` keyword), so the uptime getter silently yields
an empty reading. -/
theorem claim_C10 :
    get_uptime none = Except.ok none
    ∧ ∀ f : Option ℕ, (get_uptime f).isOk = true := by
  constructor
  · rfl
  · intro f
    cases f <;> rfl

end Tool
